import Mathlib

/-!
# Verification of the AdapterGPFE repository (biology + chemistry variants)

Shallow embedding, over exact rational arithmetic, of the functions of
`bio/adapterGPFE.py`, `bio/finetune.py`, `chem/adapterGPFE.py` and
`chem/gpfe.py` that the claims under scrutiny refer to, followed by the
theorems settling each claim.

Numeric conventions:
* Python floats are modelled by `ℚ`.  Every claim below evaluates the float
  expressions of the source only at points where the IEEE-754 double
  computation is exact (ratios with power-of-two denominators, small
  integers, `x/x = 1.0`), so the rational model agrees bit-for-bit with the
  Python execution at every point a theorem or counterexample touches.
* The not-a-number value produced by `np.nan` is modelled by `Option ℚ`
  (`none` = NaN); IEEE addition and division propagate NaN, which is what
  `nfAdd`/`nfDiv` encode.
* Tensors are modelled as `List (List ℚ)` (row-major matrices) or as index
  functions `ℕ → ℚ` where only pointwise arithmetic on same-shaped tensors
  occurs.
-/

namespace AdapterGPFE

/-! ## Python float with NaN (for `bio/finetune.py`'s `eval`) -/

/-- A Python float that may be NaN: `none` is `np.nan`, `some q` a finite
value.  (Infinities never arise in the modelled code paths.) -/
abbrev PyFloat := Option ℚ

/-- IEEE addition: NaN propagates through `+`. -/
def nfAdd : PyFloat → PyFloat → PyFloat
  | some a, some b => some (a + b)
  | _, _ => none

/-- IEEE division: NaN propagates through `/`.  (The modelled call sites
divide by a positive integer, so the 0-divisor case never occurs.) -/
def nfDiv : PyFloat → PyFloat → PyFloat
  | some a, some b => some (a / b)
  | _, _ => none

/-- Python's builtin `sum` over a list of floats: a left fold of `+`
starting from `0`. -/
def pySum (l : List PyFloat) : PyFloat := l.foldl nfAdd (some 0)

/-! ## `eval` of `bio/finetune.py` (lines 39-66) -/

/-- Column `i` of a row-major matrix (`y_true[:, i]` on an (samples × tasks)
array). -/
def col (m : List (List ℚ)) (i : ℕ) : List ℚ := m.map (fun r => r.getD i 0)

/-- `sklearn.metrics.roc_auc_score` for binary labels in {0,1}: the
Mann-Whitney statistic, (number of (positive, negative) score pairs ranked
correctly, ties counting ½) / (positives × negatives).  External
collaborator of the driver (spec §6), embedded by its standard definition. -/
def roc_auc_score (labels scores : List ℚ) : ℚ :=
  let pairs := List.zip labels scores
  let pos := (pairs.filter (fun p => p.1 = 1)).map Prod.snd
  let neg := (pairs.filter (fun p => p.1 = 0)).map Prod.snd
  let numer := (pos.map (fun s =>
    (neg.map (fun t => if t < s then (1 : ℚ) else if s = t then 1/2 else 0)).sum)).sum
  numer / ((pos.length : ℚ) * (neg.length : ℚ))

/-- `y_true.shape[1]`: the number of tasks of the stacked label matrix. -/
def numTasks (ytrue : List (List ℚ)) : ℕ := (ytrue.headD []).length

/-- The per-task guard of `eval` (finetune.py line 61):
`np.sum(y_true[:,i] == 1) > 0 and np.sum(y_true[:,i] == 0) > 0`. -/
def bothClassesPresent (ytrue : List (List ℚ)) (i : ℕ) : Bool :=
  0 < (col ytrue i).count 1 && 0 < (col ytrue i).count 0

/-- The `roc_list` built by `eval` (finetune.py lines 58-64): per task,
either the ROC-AUC (both classes present) or `np.nan`. -/
def rocList (ytrue yscores : List (List ℚ)) : List PyFloat :=
  (List.range (numTasks ytrue)).map (fun i =>
    if bothClassesPresent ytrue i
    then some (roc_auc_score (col ytrue i) (col yscores i))
    else none)

/-- The value returned by `eval` (finetune.py line 66):
`sum(roc_list) / len(roc_list)` in Python float arithmetic. -/
def evalMeanAUC (ytrue yscores : List (List ℚ)) : PyFloat :=
  nfDiv (pySum (rocList ytrue yscores)) (some (numTasks ytrue))

/-! ## `compute_bottleneck_dim` (bio lines 300-307, chem lines 377-383) -/

/-- Python's `int()` conversion of a float: truncation toward zero. -/
def pyInt (q : ℚ) : ℤ := if q < 0 then ⌈q⌉ else ⌊q⌋

/-- `GNN.compute_bottleneck_dim` (identical in both domains):
`int(min_bottleneck_dim + (max_bottleneck_dim - min_bottleneck_dim) *
(layer / (total_layers - 1)))`.  At every point the claims evaluate it
(`layer/(total_layers-1)` a quarter-integer or `x/x`), the float
computation is exact, so the rational model is faithful. -/
def compute_bottleneck_dim (minB maxB : ℤ) (layer total_layers : ℕ) : ℤ :=
  pyInt ((minB : ℚ) + ((maxB : ℚ) - (minB : ℚ)) *
    ((layer : ℚ) / ((total_layers : ℚ) - 1)))

/-- The schedule applied at layers `0 .. total_layers - 1`. -/
def bottleneckSchedule (minB maxB : ℤ) (total_layers : ℕ) : List ℤ :=
  (List.range total_layers).map (fun l => compute_bottleneck_dim minB maxB l total_layers)

end AdapterGPFE

namespace AdapterGPFE

lemma nfAdd_none_left (b : PyFloat) : nfAdd none b = none := by cases b <;> rfl

lemma nfAdd_none_right (a : PyFloat) : nfAdd a none = none := by cases a <;> rfl

lemma foldl_nfAdd_none (l : List PyFloat) : l.foldl nfAdd none = none := by
  induction l with
  | nil => rfl
  | cons a t ih => simp [List.foldl_cons, nfAdd_none_left, ih]

lemma foldl_nfAdd_eq_none_of_mem (l : List PyFloat) (acc : PyFloat) (h : none ∈ l) :
    l.foldl nfAdd acc = none := by
  induction l generalizing acc with
  | nil => cases h
  | cons a t ih =>
    rcases List.mem_cons.1 h with ha | ht
    · subst ha
      simp [List.foldl_cons, nfAdd_none_right, foldl_nfAdd_none]
    · exact ih (nfAdd acc a) ht

lemma pySum_eq_none_of_mem (l : List PyFloat) (h : none ∈ l) : pySum l = none :=
  foldl_nfAdd_eq_none_of_mem l (some 0) h

/-- Claim C1 (corrected): the biology driver's eval raises no error, but
whenever some task has only one observed class among the evaluated examples,
the NaN placeholder propagates through Python's builtin sum, so the returned
mean is NaN — it is not the mean over only the both-class tasks. -/
theorem C1_amended (ytrue yscores : List (List ℚ)) (i : ℕ) (hi : i < numTasks ytrue)
    (hsingle : bothClassesPresent ytrue i = false) :
    evalMeanAUC ytrue yscores = none := by
  have hmem : (none : PyFloat) ∈ rocList ytrue yscores := by
    unfold rocList
    exact List.mem_map.2 ⟨i, List.mem_range.2 hi, by simp [hsingle]⟩
  unfold evalMeanAUC
  rw [pySum_eq_none_of_mem _ hmem]
  rfl

/-- Witness for C1: two tasks, task 1 all-positive. -/
theorem C1_witness :
    (1 < numTasks [[1,1],[0,1]] ∧ bothClassesPresent [[1,1],[0,1]] 1 = false) ∧
      evalMeanAUC [[1,1],[0,1]] [[1,0],[0,0]] = none :=
  ⟨⟨by decide, by decide⟩, C1_amended [[1,1],[0,1]] [[1,0],[0,0]] 1 (by decide) (by decide)⟩

/-- Claim C1 as stated is false: with task 0 carrying both classes and task 1
only the positive class, the returned value is NaN, not task 0's ROC-AUC
(the mean over the tasks with both classes present). -/
theorem C1_counterexample :
    bothClassesPresent [[(1:ℚ),1],[0,1]] 0 = true ∧
    bothClassesPresent [[(1:ℚ),1],[0,1]] 1 = false ∧
    evalMeanAUC [[1,1],[0,1]] [[1,0],[0,0]] ≠
      some (roc_auc_score (col [[1,1],[0,1]] 0) (col [[1,0],[0,0]] 0)) := by
  refine ⟨by decide, by decide, ?_⟩
  rw [C1_amended [[1,1],[0,1]] [[1,0],[0,0]] 1 (by decide) (by decide)]
  simp

/-- Claim C2 as stated is false: at layer 3 the schedule yields
`int(3 + 13·0.75) = 12`, not the claimed 13 — which also disagrees with the
claim's own floor formula. -/
theorem C2_counterexample :
    bottleneckSchedule 3 16 5 ≠ [3, 6, 9, 13, 16] ∧
    compute_bottleneck_dim 3 16 3 5 = 12 ∧
    (⌊(3:ℚ) + ((16:ℚ) - 3) * (3 / ((5:ℚ) - 1))⌋ : ℤ) = 12 := by
  refine ⟨?_, ?_, by norm_num⟩
  · norm_num [bottleneckSchedule, compute_bottleneck_dim, pyInt, List.range_succ]
  · norm_num [compute_bottleneck_dim, pyInt]

/-- Claim C2 (corrected): for minBottleneck=3, maxBottleneck=16,
total_layers=5 the widths for layers 0..4 are exactly [3, 6, 9, 12, 16], the
floor of the linear interpolation, and the sequence is non-decreasing. -/
theorem C2_amended :
    bottleneckSchedule 3 16 5 = [3, 6, 9, 12, 16] ∧
    (∀ l : Fin 5, compute_bottleneck_dim 3 16 l 5 =
      ⌊(3:ℚ) + ((16:ℚ) - 3) * ((l : ℚ) / ((5:ℚ) - 1))⌋) ∧
    List.Chain' (· ≤ ·) (bottleneckSchedule 3 16 5) := by
  have hsched : bottleneckSchedule 3 16 5 = [3, 6, 9, 12, 16] := by
    norm_num [bottleneckSchedule, compute_bottleneck_dim, pyInt, List.range_succ]
  refine ⟨hsched, ?_, by rw [hsched]; norm_num [List.chain'_cons]⟩
  intro l
  fin_cases l <;> norm_num [compute_bottleneck_dim, pyInt]

end AdapterGPFE

namespace AdapterGPFE

/-! ## Adapter construction in `GNN.__init__` (bio lines 279-297, chem lines 352-375) -/

/-- What a single adapter module is built as: a bottleneck MLP
`Linear(in, dim) → ReLU → Linear(dim, emb_dim) → BatchNorm` when the width is
positive, or a plain `BatchNorm1d(emb_dim)` otherwise. -/
inductive AdapterSpec where
  | bottleneck (dim : ℤ)
  | plainBatchNorm
deriving DecidableEq

/-- The two per-layer adapter lists (`self.prompts[0]`, `self.prompts[1]`) built
by the *biology* `GNN.__init__` (bio/adapterGPFE.py lines 279-297).  In the
source, `bottleneck_dim` is assigned from `compute_bottleneck_dim(layer,
num_layer)` where `layer` is the loop variable left over from the
convolution-building loop, i.e. `num_layer - 1`; the assignment sits in the
small `prompt_num` loop, before the layer loop that builds the adapters, so
every adapter is built with this one value. -/
def bioAdapterStack (minB maxB : ℤ) (num_layer : ℕ) : List (List AdapterSpec) :=
  let bottleneck_dim := compute_bottleneck_dim minB maxB (num_layer - 1) num_layer
  (List.range 2).map (fun _ => (List.range num_layer).map (fun _ =>
    if 0 < bottleneck_dim then AdapterSpec.bottleneck bottleneck_dim
    else AdapterSpec.plainBatchNorm))

/-- The two per-layer adapter lists built by the *chemistry* `GNN.__init__`
(chem/adapterGPFE.py lines 352-375), where `bottleneck_dim` is recomputed for
each layer inside the layer loop. -/
def chemAdapterStack (minB maxB : ℤ) (num_layer : ℕ) : List (List AdapterSpec) :=
  (List.range 2).map (fun _ => (List.range num_layer).map (fun layer =>
    let b := compute_bottleneck_dim minB maxB layer num_layer
    if 0 < b then AdapterSpec.bottleneck b else AdapterSpec.plainBatchNorm))

/-- Biology `GNN.__init__` (bio/adapterGPFE.py lines 241-297): the `num_layer`
guard followed by adapter construction; the summary value is the adapter
stack. -/
def bioGNNInit (minB maxB : ℤ) (num_layer : ℕ) :
    Except String (List (List AdapterSpec)) :=
  if num_layer < 2 then Except.error "Number of GNN layers must be greater than 1."
  else Except.ok (bioAdapterStack minB maxB num_layer)

/-- Chemistry `GNN.__init__` (chem/adapterGPFE.py lines 310-375): the same
guard, with the per-layer width schedule. -/
def chemGNNInit (minB maxB : ℤ) (num_layer : ℕ) :
    Except String (List (List AdapterSpec)) :=
  if num_layer < 2 then Except.error "Number of GNN layers must be greater than 1."
  else Except.ok (chemAdapterStack minB maxB num_layer)

lemma compute_bottleneck_dim_last (minB maxB : ℤ) (L : ℕ) (hL : 2 ≤ L) :
    compute_bottleneck_dim minB maxB (L - 1) L = maxB := by
  unfold compute_bottleneck_dim
  have hcast : ((L - 1 : ℕ) : ℚ) = (L : ℚ) - 1 := by
    have h1 : (1 : ℕ) ≤ L := le_trans (by norm_num) hL
    rw [Nat.cast_sub h1, Nat.cast_one]
  have hne : ((L : ℚ) - 1) ≠ 0 := by
    have : (2 : ℚ) ≤ (L : ℚ) := by exact_mod_cast hL
    linarith
  rw [hcast, div_self hne, mul_one]
  have : (minB : ℚ) + ((maxB : ℚ) - (minB : ℚ)) = ((maxB : ℤ) : ℚ) := by ring
  rw [this]
  unfold pyInt
  split_ifs with h
  · exact Int.ceil_intCast maxB
  · exact Int.floor_intCast maxB

/-- Claim C9 (confirmed): in the biology encoder the bottleneck width is taken
from the stale convolution-loop index `num_layer - 1`, so for every
`num_layer ≥ 2` (and positive `max_bottleneck_dim`) construction succeeds and
all `2 × num_layer` adapter modules share the single width
`max_bottleneck_dim`; no per-layer schedule is applied. -/
theorem C9_bio_uniform_bottleneck (L : ℕ) (minB maxB : ℤ) (hL : 2 ≤ L) (hmax : 0 < maxB) :
    bioGNNInit minB maxB L =
      Except.ok (List.replicate 2 (List.replicate L (AdapterSpec.bottleneck maxB))) ∧
    compute_bottleneck_dim minB maxB (L - 1) L = maxB := by
  have hlast := compute_bottleneck_dim_last minB maxB L hL
  refine ⟨?_, hlast⟩
  unfold bioGNNInit bioAdapterStack
  rw [if_neg (by omega)]
  simp only [hlast, if_pos hmax, List.map_const', List.length_range]

/-- Witness for C9 at the driver's CLI defaults. -/
theorem C9_witness :
    (2 ≤ 5 ∧ (0 : ℤ) < 16) ∧
      bioGNNInit 3 16 5 =
        Except.ok (List.replicate 2 (List.replicate 5 (AdapterSpec.bottleneck 16))) :=
  ⟨⟨by decide, by decide⟩, (C9_bio_uniform_bottleneck 5 3 16 (by decide) (by decide)).1⟩

/-! ## Model selection in `main` (bio/finetune.py lines 224-260) -/

/-- One epoch of the tracking in `main`: `if val_acc > best_val: best_val =
val_acc; select_acc_easy = test_acc_easy` (finetune.py lines 253-256), on the
state `(best_val, select_acc_easy)`. -/
def selectStep (s p : ℚ × ℚ) : ℚ × ℚ := if s.1 < p.1 then p else s

/-- The `(best_val, select_acc_easy)` pair after running all epochs, starting
from `(0, 0)` (finetune.py lines 224-225); `main` returns the second
component. -/
def runSelection (epochs : List (ℚ × ℚ)) : ℚ × ℚ := epochs.foldl selectStep (0, 0)

/-- Running maximum of the validation entries, seeded with `s`. -/
def foldMax (s : ℚ) (l : List (ℚ × ℚ)) : ℚ := l.foldl (fun a p => max a p.1) s

/-- Modelled from the spec: the run's reported result is "the easy-test AUC
recorded at the first epoch achieving the maximum validation AUC seen across
all epochs, and 0 if no epoch's validation AUC exceeds 0". -/
def specSelectedTest (epochs : List (ℚ × ℚ)) : ℚ :=
  if epochs.any (fun p => decide (0 < p.1)) then
    ((epochs.find? (fun p => decide (p.1 = foldMax 0 epochs))).getD (0, 0)).2
  else 0

lemma foldMax_cons (s : ℚ) (p : ℚ × ℚ) (t : List (ℚ × ℚ)) :
    foldMax s (p :: t) = foldMax (max s p.1) t := rfl

lemma le_foldMax (t : List (ℚ × ℚ)) (s : ℚ) : s ≤ foldMax s t := by
  induction t generalizing s with
  | nil => exact le_refl s
  | cons p t ih => exact le_trans (le_max_left s p.1) (ih (max s p.1))

lemma mem_le_foldMax (t : List (ℚ × ℚ)) (s : ℚ) (q : ℚ × ℚ) (hq : q ∈ t) :
    q.1 ≤ foldMax s t := by
  induction t generalizing s with
  | nil => cases hq
  | cons p t ih =>
    rcases List.mem_cons.1 hq with h | h
    · subst h
      exact le_trans (le_max_right s q.1) (le_foldMax t (max s q.1))
    · exact ih (max s p.1) h

lemma foldMax_eq_self (t : List (ℚ × ℚ)) (s : ℚ) (h : ∀ q ∈ t, q.1 ≤ s) :
    foldMax s t = s := by
  induction t generalizing s with
  | nil => rfl
  | cons p t ih =>
    rw [foldMax_cons, max_eq_left (h p (List.mem_cons_self p t))]
    exact ih s (fun q hq => h q (List.mem_cons_of_mem p hq))

lemma findCongr {α : Type} (l : List α) (f g : α → Bool) (h : ∀ a ∈ l, f a = g a) :
    l.find? f = l.find? g := by
  induction l with
  | nil => rfl
  | cons a t ih =>
    have ha := h a (List.mem_cons_self a t)
    by_cases hf : f a = true
    · rw [List.find?_cons_of_pos _ hf, List.find?_cons_of_pos _ (ha ▸ hf)]
    · rw [List.find?_cons_of_neg _ hf,
        List.find?_cons_of_neg _ (by rw [← ha]; exact hf)]
      exact ih (fun x hx => h x (List.mem_cons_of_mem a hx))

lemma foldl_selectStep_spec (ps : List (ℚ × ℚ)) (s : ℚ × ℚ) :
    (ps.foldl selectStep s).1 = foldMax s.1 ps ∧
    (ps.foldl selectStep s).2 =
      (if ps.any (fun p => decide (s.1 < p.1)) then
        ((ps.find? (fun p => decide (foldMax s.1 ps ≤ p.1))).getD (0, 0)).2
      else s.2) := by
  induction ps generalizing s with
  | nil => exact ⟨rfl, rfl⟩
  | cons p t ih =>
    by_cases hsp : s.1 < p.1
    · have hstep : selectStep s p = p := by unfold selectStep; rw [if_pos hsp]
      have hmax : max s.1 p.1 = p.1 := max_eq_right (le_of_lt hsp)
      have h1 : (List.foldl selectStep s (p :: t)).1 = foldMax s.1 (p :: t) := by
        rw [List.foldl_cons, hstep, foldMax_cons, hmax]
        exact (ih p).1
      refine ⟨h1, ?_⟩
      have hany : (p :: t).any (fun q => decide (s.1 < q.1)) = true :=
        List.any_cons .. ▸ (by rw [decide_eq_true hsp]; simp)
      rw [List.foldl_cons, hstep, hany, if_pos rfl, foldMax_cons, hmax]
      rcases (ih p) with ⟨-, ih2⟩
      by_cases hta : t.any (fun q => decide (p.1 < q.1)) = true
      · rw [ih2, if_pos hta]
        rcases List.any_eq_true.1 hta with ⟨q, hq, hqlt⟩
        have hqlt' : p.1 < q.1 := of_decide_eq_true hqlt
        have hM : ¬ (foldMax p.1 t ≤ p.1) :=
          not_le.2 (lt_of_lt_of_le hqlt' (mem_le_foldMax t p.1 q hq))
        rw [List.find?_cons_of_neg _ (by simpa using hM)]
      · rw [ih2, if_neg hta]
        have hall : ∀ q ∈ t, q.1 ≤ p.1 := by
          intro q hq
          by_contra hc
          exact hta (List.any_eq_true.2 ⟨q, hq, decide_eq_true (not_le.1 hc)⟩)
        have hM : foldMax p.1 t = p.1 := foldMax_eq_self t p.1 hall
        rw [hM, List.find?_cons_of_pos _ (by simp)]
        rfl
    · have hstep : selectStep s p = s := by unfold selectStep; rw [if_neg hsp]
      have hple : p.1 ≤ s.1 := not_lt.1 hsp
      have hmax : max s.1 p.1 = s.1 := max_eq_left hple
      have h1 : (List.foldl selectStep s (p :: t)).1 = foldMax s.1 (p :: t) := by
        rw [List.foldl_cons, hstep, foldMax_cons, hmax]
        exact (ih s).1
      refine ⟨h1, ?_⟩
      have hanyc : ((p :: t).any (fun q => decide (s.1 < q.1)))
          = t.any (fun q => decide (s.1 < q.1)) := by
        rw [List.any_cons, decide_eq_false hsp]
        simp
      rw [List.foldl_cons, hstep, hanyc, foldMax_cons, hmax]
      rcases (ih s) with ⟨-, ih2⟩
      by_cases hta : t.any (fun q => decide (s.1 < q.1)) = true
      · rw [ih2, if_pos hta, if_pos hta]
        rcases List.any_eq_true.1 hta with ⟨q, hq, hqlt⟩
        have hqlt' : s.1 < q.1 := of_decide_eq_true hqlt
        have hM : ¬ (foldMax s.1 t ≤ p.1) :=
          not_le.2 (lt_of_le_of_lt hple
            (lt_of_lt_of_le hqlt' (mem_le_foldMax t s.1 q hq)))
        rw [List.find?_cons_of_neg _ (by simpa using hM)]
      · rw [ih2, if_neg hta, if_neg hta]

/-- Claim C5 (confirmed): for every per-epoch sequence of (validation AUC,
easy-test AUC) pairs, the run result returned by `main` — the second component
of the `(best_val, select_acc_easy)` fold — equals the easy-test AUC at the
first epoch achieving the maximum validation AUC (0 when no validation AUC
exceeds 0), not the final epoch's easy-test AUC. -/
theorem C5_selection_by_validation (epochs : List (ℚ × ℚ)) :
    (runSelection epochs).2 = specSelectedTest epochs := by
  have h := (foldl_selectStep_spec epochs (0, 0)).2
  unfold runSelection specSelectedTest
  rw [h]
  by_cases hany : epochs.any (fun p => decide ((0:ℚ) < p.1)) = true
  · rw [if_pos hany, if_pos hany]
    have hpred : ∀ p ∈ epochs,
        (decide (foldMax 0 epochs ≤ p.1)) = (decide (p.1 = foldMax 0 epochs)) := by
      intro p hp
      have hle : p.1 ≤ foldMax 0 epochs := mem_le_foldMax epochs 0 p hp
      by_cases he : foldMax 0 epochs ≤ p.1
      · rw [decide_eq_true he, decide_eq_true (le_antisymm hle he)]
      · rw [decide_eq_false he, decide_eq_false (fun hc => he (le_of_eq hc.symm))]
    rw [findCongr epochs _ _ hpred]
  · rw [if_neg hany, if_neg hany]

end AdapterGPFE

namespace AdapterGPFE

/-! ## Graph-prediction-head construction (bio lines 337-366, chem lines 235-282) -/

/-- The pooling selected by the biology `AdapterGPFE_graphpred.__init__`
(bio/adapterGPFE.py lines 354-364): `sum`, `mean`, `max`, `attention`, anything
else raises. -/
def bioGraphpredPool (graph_pooling : String) : Except String Unit :=
  if graph_pooling = "sum" then Except.ok ()
  else if graph_pooling = "mean" then Except.ok ()
  else if graph_pooling = "max" then Except.ok ()
  else if graph_pooling = "attention" then Except.ok ()
  else Except.error "Invalid graph pooling type."

/-- The pooling selected by the chemistry `AdapterGPFE_graphpred.__init__`
(chem/adapterGPFE.py lines 253-272), recording the attention gate width /
Set2Set processing width the branch would construct. -/
inductive ChemPool where
  | sum
  | mean
  | max
  | attention (gateWidth : ℕ)
  | set2set (width iters : ℕ)
deriving DecidableEq

/-- Chemistry pooling dispatch, including the `graph_pooling[:-1] == "set2set"`
branch with `int(graph_pooling[-1])`. -/
def chemGraphpredPool (graph_pooling JK : String) (num_layer emb_dim : ℕ) :
    Except String ChemPool :=
  if graph_pooling = "sum" then Except.ok ChemPool.sum
  else if graph_pooling = "mean" then Except.ok ChemPool.mean
  else if graph_pooling = "max" then Except.ok ChemPool.max
  else if graph_pooling = "attention" then
    Except.ok (ChemPool.attention
      (if JK = "concat" then (num_layer + 1) * emb_dim else emb_dim))
  else if graph_pooling.dropRight 1 = "set2set" then
    match (graph_pooling.takeRight 1).toNat? with
    | some k => Except.ok (ChemPool.set2set
        (if JK = "concat" then (num_layer + 1) * emb_dim else emb_dim) k)
    | none => Except.error "invalid literal for int() with base 10"
  else Except.error "Invalid graph pooling type."

/-- Biology `AdapterGPFE_graphpred.__init__` (bio/adapterGPFE.py lines
340-366): `num_layer` guard, encoder construction, pooling dispatch. -/
def bioGraphpredInit (minB maxB : ℤ) (num_layer : ℕ) (graph_pooling : String) :
    Except String (List (List AdapterSpec)) :=
  if num_layer < 2 then Except.error "Number of GNN layers must be greater than 1."
  else do
    let stack ← bioGNNInit minB maxB num_layer
    let _ ← bioGraphpredPool graph_pooling
    pure stack

/-- Chemistry `AdapterGPFE_graphpred.__init__` (chem/adapterGPFE.py lines
238-282): `num_layer` guard, encoder construction, pooling dispatch. -/
def chemGraphpredInit (minB maxB : ℤ) (num_layer emb_dim : ℕ)
    (JK graph_pooling : String) :
    Except String (List (List AdapterSpec) × ChemPool) :=
  if num_layer < 2 then Except.error "Number of GNN layers must be greater than 1."
  else do
    let stack ← chemGNNInit minB maxB num_layer
    let pool ← chemGraphpredPool graph_pooling JK num_layer emb_dim
    pure (stack, pool)

/-- Claim C7 (confirmed): constructing the encoder or the graph-prediction
model with `num_layer < 2` fails with the error
"Number of GNN layers must be greater than 1.", and constructing the
prediction head with the unrecognized pooling string "bogus" fails with
"Invalid graph pooling type.", in both domains. -/
theorem C7_invalid_configuration (n emb_dim : ℕ) (minB maxB : ℤ) (JK : String) :
    (∀ gp : String, n < 2 →
      bioGNNInit minB maxB n =
        Except.error "Number of GNN layers must be greater than 1." ∧
      chemGNNInit minB maxB n =
        Except.error "Number of GNN layers must be greater than 1." ∧
      bioGraphpredInit minB maxB n gp =
        Except.error "Number of GNN layers must be greater than 1." ∧
      chemGraphpredInit minB maxB n emb_dim JK gp =
        Except.error "Number of GNN layers must be greater than 1.") ∧
    (2 ≤ n →
      bioGraphpredInit minB maxB n "bogus" =
        Except.error "Invalid graph pooling type." ∧
      chemGraphpredInit minB maxB n emb_dim JK "bogus" =
        Except.error "Invalid graph pooling type.") := by
  constructor
  · intro gp hn
    refine ⟨?_, ?_, ?_, ?_⟩ <;>
      simp only [bioGNNInit, chemGNNInit, bioGraphpredInit, chemGraphpredInit,
        if_pos hn]
  · intro hn
    have hn' : ¬ (n < 2) := by omega
    constructor
    · simp only [bioGraphpredInit, bioGNNInit, if_neg hn']
      rfl
    · simp only [chemGraphpredInit, chemGNNInit, if_neg hn']
      rfl

/-- Witness for C7: `num_layer = 1` trips the layer-count guard and
`num_layer = 5` with pooling "bogus" trips the pooling guard. -/
theorem C7_witness :
    ((1 < 2) ∧
      bioGNNInit 3 16 1 =
        Except.error "Number of GNN layers must be greater than 1." ∧
      chemGNNInit 3 16 1 =
        Except.error "Number of GNN layers must be greater than 1." ∧
      bioGraphpredInit 3 16 1 "bogus" =
        Except.error "Number of GNN layers must be greater than 1." ∧
      chemGraphpredInit 3 16 1 300 "last" "bogus" =
        Except.error "Number of GNN layers must be greater than 1.") ∧
    ((2 ≤ 5) ∧
      bioGraphpredInit 3 16 5 "bogus" =
        Except.error "Invalid graph pooling type." ∧
      chemGraphpredInit 3 16 5 300 "last" "bogus" =
        Except.error "Invalid graph pooling type.") :=
  ⟨⟨by decide, (C7_invalid_configuration 1 300 3 16 "last").1 "bogus" (by decide)⟩,
   ⟨by decide, (C7_invalid_configuration 5 300 3 16 "last").2 (by decide)⟩⟩

end AdapterGPFE

namespace AdapterGPFE

/-! ## Adapter forward pass at construction time (C8)

A bottleneck adapter is `Sequential(Linear(in_w, bd), ReLU(), Linear(bd,
emb_dim), BatchNorm1d(emb_dim))` with
`torch.nn.init.zeros_` applied to the last linear layer's weight and bias
(bio lines 288-295, chem lines 365-373).  The first linear layer's
parameters are arbitrary (PyTorch default init), so they are universally
quantified below.  `BatchNorm1d` at construction time normalizes with
`weight γ = 1`, `bias β = 0`, `running_mean = 0`, and a positive denominator
`sqrt(var + eps)` — abstracted as a parameter `d` because the output on a
zero input is zero for every denominator (in training mode the batch
statistics of an all-zero batch give the same result). -/

/-- Dot product of a weight row with an input vector. -/
def dot (r v : List ℚ) : ℚ := (List.zipWith (· * ·) r v).sum

/-- `torch.nn.Linear`: `W·x + b`, one output entry per (row, bias) pair. -/
def linearMap (W : List (List ℚ)) (b : List ℚ) (x : List ℚ) : List ℚ :=
  List.zipWith (fun row bi => dot row x + bi) W b

/-- `torch.nn.ReLU` applied elementwise. -/
def reluVec (x : List ℚ) : List ℚ := x.map (fun v => max v 0)

/-- `BatchNorm1d` in its construction-time state (γ = 1, β = 0, mean 0,
denominator `d`). -/
def batchNormAtInit (d : ℚ) (x : List ℚ) : List ℚ :=
  x.map (fun v => (v - 0) / d * 1 + 0)

/-- A bottleneck adapter's forward pass immediately after construction: the
second linear layer carries the all-zero weight matrix and bias from
`torch.nn.init.zeros_`. -/
def adapterAtInit (emb bd : ℕ) (W1 : List (List ℚ)) (b1 : List ℚ) (d : ℚ)
    (x : List ℚ) : List ℚ :=
  batchNormAtInit d
    (linearMap (List.replicate emb (List.replicate bd 0)) (List.replicate emb 0)
      (reluVec (linearMap W1 b1 x)))

lemma dot_zero_row (n : ℕ) (v : List ℚ) : dot (List.replicate n 0) v = 0 := by
  induction n generalizing v with
  | zero => rfl
  | succ n ih =>
    cases v with
    | nil => rfl
    | cons a t =>
      simp only [dot, List.replicate_succ, List.zipWith_cons_cons, List.sum_cons,
        zero_mul, zero_add]
      exact ih t

lemma linearMap_zero_params (emb bd : ℕ) (y : List ℚ) :
    linearMap (List.replicate emb (List.replicate bd 0)) (List.replicate emb 0) y =
      List.replicate emb 0 := by
  induction emb with
  | zero => rfl
  | succ n ih =>
    simp only [linearMap, List.replicate_succ, List.zipWith_cons_cons,
      dot_zero_row, add_zero] at ih ⊢
    rw [ih]

/-- Claim C8 (confirmed): immediately after construction every bottleneck
adapter (Linear → ReLU → Linear → BatchNorm with the second linear layer
zero-initialized) maps every input vector to the all-zero output vector,
for any first-layer parameters and any batch-norm denominator. -/
theorem C8_adapter_starts_as_noop (emb bd : ℕ) (W1 : List (List ℚ)) (b1 : List ℚ)
    (d : ℚ) (x : List ℚ) :
    adapterAtInit emb bd W1 b1 d x = List.replicate emb 0 := by
  unfold adapterAtInit
  rw [linearMap_zero_params]
  unfold batchNormAtInit
  rw [List.map_replicate]
  congr 1
  simp

/-! ## The chemistry GINConv prompt hook (C10)

State and operations of `chem/adapterGPFE.py`'s `GINConv`: `__init__` (lines
41-47) sets `modify = -1`, `gating = 0`, `gating_m = 0`, `prompt = None`;
`set_prompt` (lines 85-87) assigns only `prompt` and `gating_m`;
`modify_aggr_out` (lines 81-83) returns
`aggr_out * (1 - gating_m) + prompt(delta) * gating`.  Tensors are index
functions `ℕ → ℚ` (all operations are pointwise on same-shaped tensors).
Because nothing in the given sources ever assigns `modify`, hook enabling is
modelled as an explicit external field assignment (`setModify`), per spec §9's
note that the activation path is absent from the sources. -/

/-- The prompt-hook-relevant mutable fields of a chemistry `GINConv`. -/
structure ChemGINPromptState where
  modify : ℤ
  gating : ℚ
  gating_m : ℚ
  prompt : Option ((ℕ → ℚ) → (ℕ → ℚ))

/-- Field values set by `GINConv.__init__` (chem lines 42-46). -/
def chemGINInitState : ChemGINPromptState :=
  { modify := -1, gating := 0, gating_m := 0, prompt := none }

/-- The assignments that can touch this state after construction. -/
inductive GINOp where
  | setPrompt (f : (ℕ → ℚ) → (ℕ → ℚ)) (gm : ℚ)
  | setModify (m : ℤ)

/-- `set_prompt(prompt, gating_m)` assigns only those two fields; `setModify`
is the external hook-enabling assignment. -/
def applyGINOp (s : ChemGINPromptState) : GINOp → ChemGINPromptState
  | GINOp.setPrompt f gm => { s with prompt := some f, gating_m := gm }
  | GINOp.setModify m => { s with modify := m }

/-- A sequence of post-construction assignments applied to a state. -/
def runGINOps (s : ChemGINPromptState) (ops : List GINOp) : ChemGINPromptState :=
  ops.foldl applyGINOp s

/-- `modify_aggr_out(aggr_out, delta)` (chem lines 81-83); `none` when
`prompt` is still `None` (Python would fail calling it). -/
def modify_aggr_out (s : ChemGINPromptState) (aggr delta : ℕ → ℚ) :
    Option (ℕ → ℚ) :=
  s.prompt.map (fun f => fun i => aggr i * (1 - s.gating_m) + f delta i * s.gating)

lemma runGINOps_gating (ops : List GINOp) (s : ChemGINPromptState) :
    (runGINOps s ops).gating = s.gating := by
  induction ops generalizing s with
  | nil => rfl
  | cons op t ih =>
    have hstep : (applyGINOp s op).gating = s.gating := by cases op <;> rfl
    rw [runGINOps, List.foldl_cons]
    exact (ih (applyGINOp s op)).trans hstep

/-- Claim C10 (confirmed): the gating field scaling the prompt term starts at
0 and no sequence of `set_prompt` calls (or hook enablings) changes it, so
whenever `modify_aggr_out` runs, its result is `aggr_out * (1 - gating_m)`
pointwise — the attached prompt function contributes exactly zero. -/
theorem C10_prompt_contributes_zero (ops : List GINOp) (aggr delta : ℕ → ℚ) :
    (runGINOps chemGINInitState ops).gating = 0 ∧
    ∀ out, modify_aggr_out (runGINOps chemGINInitState ops) aggr delta = some out →
      out = fun i => aggr i * (1 - (runGINOps chemGINInitState ops).gating_m) := by
  have hg : (runGINOps chemGINInitState ops).gating = 0 :=
    runGINOps_gating ops chemGINInitState
  refine ⟨hg, ?_⟩
  intro out hout
  unfold modify_aggr_out at hout
  cases hp : (runGINOps chemGINInitState ops).prompt with
  | none => rw [hp] at hout; cases hout
  | some f =>
    rw [hp] at hout
    simp only [Option.map_some'] at hout
    rw [Option.some_inj] at hout
    subst hout
    funext i
    rw [hg, mul_zero, add_zero]

end AdapterGPFE

namespace AdapterGPFE

/-- Witness for C10: one `set_prompt` call attaching a constant prompt
function, then an external hook enabling. -/
theorem C10_witness :
    (runGINOps chemGINInitState
        [GINOp.setPrompt (fun _ => fun _ => 1) (1/2), GINOp.setModify 1]).gating = 0 ∧
    ∃ out,
      modify_aggr_out
          (runGINOps chemGINInitState
            [GINOp.setPrompt (fun _ => fun _ => 1) (1/2), GINOp.setModify 1])
          (fun _ => 2) (fun _ => 3) = some out ∧
      out = fun i => (fun _ : ℕ => (2 : ℚ)) i *
        (1 - (runGINOps chemGINInitState
          [GINOp.setPrompt (fun _ => fun _ => 1) (1/2), GINOp.setModify 1]).gating_m) := by
  refine ⟨(C10_prompt_contributes_zero
    [GINOp.setPrompt (fun _ => fun _ => 1) (1/2), GINOp.setModify 1]
    (fun _ => 2) (fun _ => 3)).1, ?_⟩
  exact ⟨_, rfl, (C10_prompt_contributes_zero
    [GINOp.setPrompt (fun _ => fun _ => 1) (1/2), GINOp.setModify 1]
    (fun _ => 2) (fun _ => 3)).2 _ rfl⟩

end AdapterGPFE

namespace AdapterGPFE

/-! ## Self-loop augmentation in the convolution layers (C4) -/

/-- Row-major tensor of rationals (nodes × features, or edges × attributes). -/
abbrev Mat := List (List ℚ)

/-- `x.size(0)`: number of rows. -/
def size0 (x : Mat) : ℕ := x.length

/-- `x.size(1)`: number of columns (of a rectangular tensor). -/
def size1 (x : Mat) : ℕ := (x.headD []).length

/-- `torch_geometric.utils.add_self_loops(edge_index, num_nodes=k)` (external
collaborator, spec §6): appends one `(i, i)` edge for every `i < k` to the
edge list. -/
def add_self_loops (edge_index : List (ℕ × ℕ)) (num_nodes : ℕ) : List (ℕ × ℕ) :=
  edge_index ++ (List.range num_nodes).map (fun i => (i, i))

/-- The edge index used inside the *biology GIN* layer's forward pass
(bio/adapterGPFE.py line 48): the source passes `num_nodes=x.size(1)` — the
feature width — to the self-loop utility. -/
def bioGINSelfLoopEdgeIndex (x : Mat) (edge_index : List (ℕ × ℕ)) : List (ℕ × ℕ) :=
  add_self_loops edge_index (size1 x)

/-- The edge index used inside the biology GCN/GAT/GraphSAGE layers
(bio/adapterGPFE.py lines 106, 161, 215): `num_nodes=x.size(0)`. -/
def bioConvSelfLoopEdgeIndex (x : Mat) (edge_index : List (ℕ × ℕ)) : List (ℕ × ℕ) :=
  add_self_loops edge_index (size0 x)

/-- The biology synthetic self-loop attribute row: `torch.zeros(9)` with
index 7 set to 1 (bio lines 51-52, 109-110, 164-165, 218-219). -/
def bioSelfLoopRow : List ℚ := [0, 0, 0, 0, 0, 0, 0, 1, 0]

/-- The augmented edge-attribute tensor of every biology layer: the original
rows followed by `x.size(0)` synthetic self-loop rows. -/
def bioAugmentedEdgeAttr (x : Mat) (edge_attr : Mat) : Mat :=
  edge_attr ++ List.replicate (size0 x) bioSelfLoopRow

/-- The edge index used inside every chemistry layer's forward pass
(chem/adapterGPFE.py lines 51, 118, 167, 214): `num_nodes=x.size(0)`. -/
def chemSelfLoopEdgeIndex (x : Mat) (edge_index : List (ℕ × ℕ)) : List (ℕ × ℕ) :=
  add_self_loops edge_index (size0 x)

/-- The chemistry synthetic self-loop attribute row: `torch.zeros(x.size(0), 2)`
with column 0 set to bond-type code 4 (chem lines 53-54 etc.). -/
def chemSelfLoopRow : List ℚ := [4, 0]

/-- The augmented edge-attribute tensor of every chemistry layer. -/
def chemAugmentedEdgeAttr (x : Mat) (edge_attr : Mat) : Mat :=
  edge_attr ++ List.replicate (size0 x) chemSelfLoopRow

/-- Claim C4 (code bug in the biology GIN layer): every chemistry layer and
the biology GCN/GAT/GraphSAGE layers append exactly `N = x.size(0)`
self-loops, and every layer appends exactly `N` synthetic attribute rows set
to the domain's self-loop code, as the claim states; but the biology GIN
layer passes `x.size(1)` (the feature width) to the self-loop utility, so its
internal edge index has `E + x.size(1)` edges — at the 2-node, 3-feature,
1-edge input it holds 4 edges against the claimed `E + N = 3` (while still
appending `N = 2` attribute rows, leaving the tensors inconsistent). -/
theorem C4_self_loop_augmentation (x : Mat) (ei : List (ℕ × ℕ)) (ea : Mat) :
    ((chemSelfLoopEdgeIndex x ei).length = ei.length + size0 x ∧
     chemAugmentedEdgeAttr x ea = ea ++ List.replicate (size0 x) [4, 0] ∧
     (bioConvSelfLoopEdgeIndex x ei).length = ei.length + size0 x ∧
     bioAugmentedEdgeAttr x ea =
       ea ++ List.replicate (size0 x) [0, 0, 0, 0, 0, 0, 0, 1, 0] ∧
     (bioGINSelfLoopEdgeIndex x ei).length = ei.length + size1 x) ∧
    ((bioGINSelfLoopEdgeIndex [[0, 0, 0], [0, 0, 0]] [(0, 1)]).length = 4 ∧
     (bioGINSelfLoopEdgeIndex [[0, 0, 0], [0, 0, 0]] [(0, 1)]).length ≠
       [(0, 1)].length + size0 [[(0 : ℚ), 0, 0], [0, 0, 0]] ∧
     bioAugmentedEdgeAttr [[0, 0, 0], [0, 0, 0]] [] =
       List.replicate 2 [0, 0, 0, 0, 0, 0, 0, 1, 0]) := by
  refine ⟨⟨?_, rfl, ?_, rfl, ?_⟩, by decide, by decide, by decide⟩ <;>
    simp [chemSelfLoopEdgeIndex, bioConvSelfLoopEdgeIndex, bioGINSelfLoopEdgeIndex,
      add_self_loops]

/-! ## The biology graph-prediction forward pass (C6) -/

/-- The classifier input width declared by the biology
`AdapterGPFE_graphpred.__init__` (bio/adapterGPFE.py line 366):
`torch.nn.Linear(self.emb_dim, self.num_tasks)`. -/
def bioClassifierInWidth (emb_dim : ℕ) : ℕ := emb_dim

/-- Modelled from the spec: the intended biology graph representation, "pooled
node representation concatenated with the representation of the designated
center node".  The statement in the source, `graph_rep = torch.cat([pooled,
dim=1)` (bio/adapterGPFE.py line 377), is a Python syntax error — the
center-node term and the closing bracket are missing — so the module cannot
even be imported; this definition follows the spec's words for the
concatenation the defective line was evidently meant to perform. -/
def bioGraphRepIntended (pooled center : List ℚ) : List ℚ := pooled ++ center

/-- Claim C6 (code bug): the spec-intended graph representation is the
concatenation of the pooled and center-node representations, of width
`2·emb_dim`; the classifier declared at bio line 366 accepts only `emb_dim`
inputs, so even the intended concatenation could not produce the claimed
`num_tasks`-wide prediction for any positive `emb_dim`. -/
theorem C6_graph_rep_width (emb_dim : ℕ) (pooled center : List ℚ)
    (hp : pooled.length = emb_dim) (hc : center.length = emb_dim) :
    (bioGraphRepIntended pooled center).length = 2 * emb_dim ∧
    (0 < emb_dim →
      (bioGraphRepIntended pooled center).length ≠ bioClassifierInWidth emb_dim) := by
  have hlen : (bioGraphRepIntended pooled center).length = 2 * emb_dim := by
    unfold bioGraphRepIntended
    rw [List.length_append, hp, hc]
    ring
  exact ⟨hlen, fun hpos => by rw [hlen]; unfold bioClassifierInWidth; omega⟩

/-- Witness for C6 at `emb_dim = 2`. -/
theorem C6_witness :
    (([1, 2] : List ℚ).length = 2 ∧ ([3, 4] : List ℚ).length = 2 ∧ 0 < 2) ∧
    (bioGraphRepIntended [1, 2] [3, 4]).length = 2 * 2 ∧
    (bioGraphRepIntended [1, 2] [3, 4]).length ≠ bioClassifierInWidth 2 := by
  refine ⟨⟨rfl, rfl, by decide⟩, ?_, ?_⟩
  · exact (C6_graph_rep_width 2 [1, 2] [3, 4] rfl rfl).1
  · exact (C6_graph_rep_width 2 [1, 2] [3, 4] rfl rfl).2 (by decide)

end AdapterGPFE

namespace AdapterGPFE

/-! ## The encoders' forward loop and jumping-knowledge combination (C3)

`GNN.forward` (bio/adapterGPFE.py lines 309-333, chem/adapterGPFE.py lines
385-429) builds `h_list = [x]` and appends, per layer, the result of the
convolution + the two gated adapter corrections + (below the last layer) ReLU
+ dropout.  The claim under scrutiny quantifies over *every* forward pass and
relates the returned representation to the `h_list` entries themselves, so
the per-layer computation is abstracted as an arbitrary function
`step : ℕ → Mat → Mat` (layer index → previous representation → next
representation); the JK combination code is embedded verbatim.

The `"sum"` branch of both sources reads
`h_list = [h.unsqueeze_(0) for h in h_list]` followed by
`torch.sum(torch.cat(h_list[...], dim=0), dim=0)[0]`: the concatenation of
the `(1, N, D)` tensors is `(L, N, D)`, the sum over `dim=0` is `(N, D)`, and
the trailing `[0]` then selects *row 0* — a 1-D tensor holding node 0's
representation.  In the biology source the slice is `h_list[1:]` (the input
embedding excluded); in the chemistry source it is the whole list.  For
`"max"` (chemistry), `torch.max(·, dim=0)` returns a (values, indices) pair
and `[0]` selects the values, a full `(N, D)` tensor. -/

/-- Elementwise sum of two rows. -/
def vecAdd (a b : List ℚ) : List ℚ := List.zipWith (· + ·) a b

/-- Elementwise sum of two same-shaped matrices. -/
def matAdd (a b : Mat) : Mat := List.zipWith vecAdd a b

/-- `torch.sum(torch.cat([...], dim=0), dim=0)` over a stack of same-shaped
matrices: their elementwise sum. -/
def matListSum : List Mat → Mat
  | [] => []
  | m :: ms => ms.foldl matAdd m

/-- Elementwise max of two rows / matrices, and of a stack
(`torch.max(·, dim=0)[0]`). -/
def vecMax (a b : List ℚ) : List ℚ := List.zipWith max a b

def matMax (a b : Mat) : Mat := List.zipWith vecMax a b

def matListMax : List Mat → Mat
  | [] => []
  | m :: ms => ms.foldl matMax m

/-- `torch.cat(h_list, dim=1)`: feature-dimension concatenation. -/
def matConcatCols : List Mat → Mat
  | [] => []
  | m :: ms => ms.foldl (fun a b => List.zipWith (· ++ ·) a b) m

/-- A value returned by the JK combination: a 2-D `(N, D)` tensor or the 1-D
`(D,)` tensor produced by indexing `[0]` into a 2-D tensor. -/
inductive PyTensor where
  | mat (m : Mat)
  | vec (v : List ℚ)
deriving DecidableEq

/-- The hidden state after `l` layers: `h_list[l]`. -/
def hSeq (step : ℕ → Mat → Mat) (x : Mat) : ℕ → Mat
  | 0 => x
  | l + 1 => step l (hSeq step x l)

/-- The full `h_list` after the layer loop: `num_layer + 1` entries, the
input embedding first. -/
def hListAll (step : ℕ → Mat → Mat) (x : Mat) (num_layer : ℕ) : List Mat :=
  (List.range (num_layer + 1)).map (hSeq step x)

/-- The biology JK combination (bio lines 327-333): `"last"` takes the final
entry; `"sum"` stacks `h_list[1:]`, sums over the stack and indexes `[0]`;
any other mode leaves `node_representation` unbound (a `NameError` at
runtime), modelled as `none`. -/
def bioJK (JK : String) (hs : List Mat) : Option PyTensor :=
  if JK = "last" then some (PyTensor.mat (hs.getLastD []))
  else if JK = "sum" then some (PyTensor.vec ((matListSum (hs.drop 1)).headD []))
  else none

/-- The chemistry JK combination (chem lines 417-429): adds `"concat"` and
`"max"`, and its `"sum"` branch stacks the whole `h_list`. -/
def chemJK (JK : String) (hs : List Mat) : Option PyTensor :=
  if JK = "concat" then some (PyTensor.mat (matConcatCols hs))
  else if JK = "last" then some (PyTensor.mat (hs.getLastD []))
  else if JK = "max" then some (PyTensor.mat (matListMax hs))
  else if JK = "sum" then some (PyTensor.vec ((matListSum hs).headD []))
  else none

/-- The biology `GNN.forward` with the per-layer computation abstracted. -/
def bioGNNForward (num_layer : ℕ) (step : ℕ → Mat → Mat) (JK : String)
    (x : Mat) : Option PyTensor :=
  bioJK JK (hListAll step x num_layer)

/-- The chemistry `GNN.forward` with the per-layer computation abstracted
(`x` stands for the already-embedded input `x_embedding1 + x_embedding2`). -/
def chemGNNForward (num_layer : ℕ) (step : ℕ → Mat → Mat) (JK : String)
    (x : Mat) : Option PyTensor :=
  chemJK JK (hListAll step x num_layer)

end AdapterGPFE

namespace AdapterGPFE

/-- Claim C3 as stated is false: at `num_layer = 2` with identity layers on
the 2-node, 1-feature input `[[1],[2]]`, the elementwise sum of all
`num_layer + 1` intermediate representations is the matrix `[[3],[6]]`, but
the biology forward with `JK="sum"` returns the 1-D tensor `[2]` (row 0 of
the sum over `h_list[1:]`) and the chemistry forward returns `[3]` (row 0 of
the sum over all of `h_list`) — neither equals the claimed matrix. -/
theorem C3_counterexample :
    bioGNNForward 2 (fun _ m => m) "sum" [[1], [2]] = some (PyTensor.vec [2]) ∧
    chemGNNForward 2 (fun _ m => m) "sum" [[1], [2]] = some (PyTensor.vec [3]) ∧
    matListSum (hListAll (fun _ m => m) [[1], [2]] 2) = [[3], [6]] ∧
    bioGNNForward 2 (fun _ m => m) "sum" [[1], [2]] ≠
      some (PyTensor.mat (matListSum (hListAll (fun _ m => m) [[1], [2]] 2))) ∧
    chemGNNForward 2 (fun _ m => m) "sum" [[1], [2]] ≠
      some (PyTensor.mat (matListSum (hListAll (fun _ m => m) [[1], [2]] 2))) := by
  have hb : bioGNNForward 2 (fun _ m => m) "sum" [[1], [2]] = some (PyTensor.vec [2]) := by
    norm_num [bioGNNForward, bioJK, hListAll, hSeq, List.range_succ, matListSum,
      matAdd, vecAdd, show ("sum" : String) ≠ "last" from by decide]
  have hc : chemGNNForward 2 (fun _ m => m) "sum" [[1], [2]] = some (PyTensor.vec [3]) := by
    norm_num [chemGNNForward, chemJK, hListAll, hSeq, List.range_succ, matListSum,
      matAdd, vecAdd, show ("sum" : String) ≠ "last" from by decide,
      show ("sum" : String) ≠ "concat" from by decide,
      show ("sum" : String) ≠ "max" from by decide]
  have hs : matListSum (hListAll (fun _ m => m) [[1], [2]] 2) = [[3], [6]] := by
    norm_num [hListAll, hSeq, List.range_succ, matListSum, matAdd, vecAdd]
  refine ⟨hb, hc, hs, ?_, ?_⟩
  · rw [hb, hs]; simp
  · rw [hc, hs]; simp

/-! ### Shape and entry bookkeeping for the amended C3 statement -/

/-- Entry `(i, j)` of a matrix (0 outside the stored data). -/
def entry (m : Mat) (i j : ℕ) : ℚ := (m.getD i []).getD j 0

/-- `m` is a rectangular `R × D` matrix. -/
def MatShape (m : Mat) (R D : ℕ) : Prop :=
  m.length = R ∧ ∀ i ∈ List.range R, (m.getD i []).length = D

instance (m : Mat) (R D : ℕ) : Decidable (MatShape m R D) := by
  unfold MatShape
  infer_instance

lemma getD_zipWith_of_lt {α β γ : Type} (f : α → β → γ) (a : List α) (b : List β)
    (i : ℕ) (da : α) (db : β) (dc : γ) (ha : i < a.length) (hb : i < b.length) :
    (List.zipWith f a b).getD i dc = f (a.getD i da) (b.getD i db) := by
  induction a generalizing b i with
  | nil => cases ha
  | cons x xs ih =>
    cases b with
    | nil => cases hb
    | cons y ys =>
      cases i with
      | zero => rfl
      | succ i =>
        simp only [List.zipWith_cons_cons, List.getD_cons_succ]
        exact ih ys i (Nat.lt_of_succ_lt_succ ha) (Nat.lt_of_succ_lt_succ hb)

lemma matShape_matAdd (a b : Mat) (R D : ℕ) (ha : MatShape a R D)
    (hb : MatShape b R D) : MatShape (matAdd a b) R D := by
  obtain ⟨ha1, ha2⟩ := ha
  obtain ⟨hb1, hb2⟩ := hb
  constructor
  · unfold matAdd
    rw [List.length_zipWith, ha1, hb1, min_self]
  · intro i hi
    have hi' := List.mem_range.1 hi
    unfold matAdd
    rw [getD_zipWith_of_lt vecAdd a b i [] [] [] (ha1 ▸ hi') (hb1 ▸ hi')]
    unfold vecAdd
    rw [List.length_zipWith, ha2 i hi, hb2 i hi, min_self]

lemma entry_matAdd (a b : Mat) (R D : ℕ) (ha : MatShape a R D) (hb : MatShape b R D)
    (i j : ℕ) (hi : i < R) (hj : j < D) :
    entry (matAdd a b) i j = entry a i j + entry b i j := by
  obtain ⟨ha1, ha2⟩ := ha
  obtain ⟨hb1, hb2⟩ := hb
  unfold entry matAdd
  rw [getD_zipWith_of_lt vecAdd a b i [] [] [] (ha1 ▸ hi) (hb1 ▸ hi)]
  unfold vecAdd
  have hja : j < (a.getD i []).length := by
    rw [ha2 i (List.mem_range.2 hi)]; exact hj
  have hjb : j < (b.getD i []).length := by
    rw [hb2 i (List.mem_range.2 hi)]; exact hj
  rw [getD_zipWith_of_lt (· + ·) _ _ j 0 0 0 hja hjb]

lemma foldl_matAdd_spec (ms : List Mat) (acc : Mat) (R D : ℕ)
    (hacc : MatShape acc R D) (hms : ∀ m ∈ ms, MatShape m R D) :
    MatShape (ms.foldl matAdd acc) R D ∧
    ∀ i j, i < R → j < D →
      entry (ms.foldl matAdd acc) i j =
        entry acc i j + (ms.map (fun m => entry m i j)).sum := by
  induction ms generalizing acc with
  | nil => exact ⟨hacc, fun i j _ _ => by simp⟩
  | cons m t ih =>
    have hm : MatShape m R D := hms m (List.mem_cons_self m t)
    have ht : ∀ q ∈ t, MatShape q R D := fun q hq => hms q (List.mem_cons_of_mem m hq)
    have hacc' : MatShape (matAdd acc m) R D := matShape_matAdd acc m R D hacc hm
    obtain ⟨ihs, ihe⟩ := ih (matAdd acc m) hacc' ht
    refine ⟨ihs, fun i j hi hj => ?_⟩
    rw [List.foldl_cons] at *
    rw [ihe i j hi hj, entry_matAdd acc m R D hacc hm i j hi hj, List.map_cons,
      List.sum_cons]
    ring

lemma matListSum_spec (L : List Mat) (R D : ℕ) (hL : L ≠ [])
    (h : ∀ m ∈ L, MatShape m R D) :
    MatShape (matListSum L) R D ∧
    ∀ i j, i < R → j < D →
      entry (matListSum L) i j = (L.map (fun m => entry m i j)).sum := by
  cases L with
  | nil => exact absurd rfl hL
  | cons m ms =>
    have hm : MatShape m R D := h m (List.mem_cons_self m ms)
    have hms : ∀ q ∈ ms, MatShape q R D := fun q hq => h q (List.mem_cons_of_mem m hq)
    obtain ⟨hs, he⟩ := foldl_matAdd_spec ms m R D hm hms
    exact ⟨hs, fun i j hi hj => by
      show entry (ms.foldl matAdd m) i j = _
      rw [he i j hi hj, List.map_cons, List.sum_cons]⟩

lemma headD_of_shape (M : Mat) (R D : ℕ) (hM : MatShape M R D) (hR : 0 < R) :
    (M.headD []).length = D ∧ ∀ j : ℕ, (M.headD []).getD j 0 = entry M 0 j := by
  obtain ⟨h1, h2⟩ := hM
  cases M with
  | nil => simp [size0] at h1; omega
  | cons r t =>
    refine ⟨?_, fun j => rfl⟩
    have := h2 0 (List.mem_range.2 hR)
    simpa using this

end AdapterGPFE

namespace AdapterGPFE

lemma hListAll_getLastD (step : ℕ → Mat → Mat) (x : Mat) (n : ℕ) :
    (hListAll step x n).getLastD [] = hSeq step x n := by
  unfold hListAll
  rw [List.range_succ, List.map_append]
  simp [List.getLastD_eq_getLast?, List.getLast?_concat]

lemma hListAll_drop_one (step : ℕ → Mat → Mat) (x : Mat) (n : ℕ) :
    (hListAll step x n).drop 1 = (List.range n).map (fun l => hSeq step x (l + 1)) := by
  unfold hListAll
  rw [List.range_succ_eq_map, List.map_cons, List.map_map]
  rfl

end AdapterGPFE

namespace AdapterGPFE

/-- Claim C3 (corrected): for every forward pass of either encoder,
`JK="last"` returns the final hidden state, but `JK="sum"` returns only the
representation of node 0 — the first row of the elementwise sum, taken over
`h_list[1:]` (the input embedding excluded) in biology and over all
`num_layer+1` entries in chemistry — not the full summed matrix. -/
theorem C3_amended (n : ℕ) (step : ℕ → Mat → Mat) (x : Mat) (R D : ℕ)
    (hR : 0 < R) (hn : 2 ≤ n)
    (hshape : ∀ m ∈ hListAll step x n, MatShape m R D) :
    bioGNNForward n step "last" x = some (PyTensor.mat (hSeq step x n)) ∧
    chemGNNForward n step "last" x = some (PyTensor.mat (hSeq step x n)) ∧
    (∃ v, bioGNNForward n step "sum" x = some (PyTensor.vec v) ∧ v.length = D ∧
      ∀ j, j < D → v.getD j 0 =
        ((List.range n).map (fun l => entry (hSeq step x (l + 1)) 0 j)).sum) ∧
    (∃ v, chemGNNForward n step "sum" x = some (PyTensor.vec v) ∧ v.length = D ∧
      ∀ j, j < D → v.getD j 0 =
        ((List.range (n + 1)).map (fun l => entry (hSeq step x l) 0 j)).sum) := by
  have hlast_bio : bioGNNForward n step "last" x = some (PyTensor.mat (hSeq step x n)) := by
    unfold bioGNNForward bioJK
    rw [if_pos rfl, hListAll_getLastD]
  have hlast_chem : chemGNNForward n step "last" x = some (PyTensor.mat (hSeq step x n)) := by
    unfold chemGNNForward chemJK
    rw [if_neg (by decide), if_pos rfl, hListAll_getLastD]
  refine ⟨hlast_bio, hlast_chem, ?_, ?_⟩
  · -- biology "sum": the stack is h_list[1:]
    have hdrop := hListAll_drop_one step x n
    have hne : ((List.range n).map (fun l => hSeq step x (l + 1))) ≠ [] := by
      intro hnil
      have : List.range n = [] := List.map_eq_nil_iff.1 hnil
      rw [List.range_eq_nil] at this
      omega
    have hmem : ∀ m ∈ (List.range n).map (fun l => hSeq step x (l + 1)), MatShape m R D := by
      intro m hm
      exact hshape m (List.drop_subset 1 _ (hdrop ▸ hm))
    obtain ⟨hS, hE⟩ := matListSum_spec _ R D hne hmem
    obtain ⟨hlen, hget⟩ := headD_of_shape _ R D hS hR
    refine ⟨_, ?_, hlen, ?_⟩
    · unfold bioGNNForward bioJK
      rw [if_neg (by decide), if_pos rfl, hdrop]
    · intro j hj
      rw [hget j, hE 0 j hR hj, List.map_map]
      rfl
  · -- chemistry "sum": the stack is the whole h_list
    have hne : hListAll step x n ≠ [] := by
      unfold hListAll
      intro hnil
      have : List.range (n + 1) = [] := List.map_eq_nil_iff.1 hnil
      rw [List.range_eq_nil] at this
      omega
    obtain ⟨hS, hE⟩ := matListSum_spec _ R D hne hshape
    obtain ⟨hlen, hget⟩ := headD_of_shape _ R D hS hR
    refine ⟨_, ?_, hlen, ?_⟩
    · unfold chemGNNForward chemJK
      rw [if_neg (by decide), if_neg (by decide), if_neg (by decide), if_pos rfl]
    · intro j hj
      rw [hget j, hE 0 j hR hj]
      unfold hListAll
      rw [List.map_map]
      rfl

/-- Witness for C3 at `num_layer = 2`, identity layers, input `[[1],[2]]`. -/
theorem C3_witness :
    ((0 : ℕ) < 2 ∧ (2 : ℕ) ≤ 2 ∧
      ∀ m ∈ hListAll (fun _ m => m) [[1], [2]] 2, MatShape m 2 1) ∧
    (∃ v, bioGNNForward 2 (fun _ m => m) "sum" [[1], [2]] = some (PyTensor.vec v) ∧
      v.length = 1 ∧
      ∀ j, j < 1 → v.getD j 0 =
        ((List.range 2).map
          (fun l => entry (hSeq (fun _ m => m) [[1], [2]] (l + 1)) 0 j)).sum) := by
  refine ⟨⟨by decide, by decide, by decide⟩, ?_⟩
  exact (C3_amended 2 (fun _ m => m) [[1], [2]] 2 1 (by decide) (by decide) (by decide)).2.2.1

end AdapterGPFE
